import Mathlib

/-!
Shallow embedding of the service-preference core of python-openstacksdk:
`openstack/user_preference.py` (the `UserPreference` store) and
`openstack/providers.py` (the `MultiProvider` role-lookup composition).

Python dicts keyed by strings are modelled as association lists
`List (String × _)` with Python-dict semantics: insertion of a fresh key
appends, insertion of an existing key replaces the value in place.
Exceptions are modelled as `Except` results; methods that mutate `self`
and may raise are modelled as `Except SDKError Unit × UserPreference`,
returning the (possibly partially mutated) state alongside the outcome,
because a raised Python exception does not roll back prior mutations.
-/

namespace OpenStackSDK

/-- Visibility levels of a service endpoint (glossary: public/internal/admin,
with "unset" modelled as `none` at the use sites). -/
inductive Visibility where
  | visPublic
  | visInternal
  | visAdmin
deriving DecidableEq

/-- Modelled from the spec: the descriptor record (`ServiceFilter`, defined in
`openstack/auth/service_filter.py`, which is not part of the sources): identity
`service_type` plus mutable fields `service_name`, `region`, `version`,
`visibility` (where `none` is the "unset" visibility). -/
structure ServiceFilter where
  service_type : String
  service_name : Option String := none
  region : Option String := none
  version : Option String := none
  visibility : Option Visibility := none
deriving DecidableEq

/-- Errors raised by the core.  The source raises
`exceptions.SDKException("Service %s not in list of valid services: %s" % (service, self.service_names))`;
the two interpolated values are carried structurally. `ValidationError`
carries the rejected visibility string (raised by the descriptor, per the
spec's descriptor contract). -/
inductive SDKError where
  | UnknownServiceError (service : String) (valid : List String)
  | ValidationError (value : String)
deriving DecidableEq

/-- Modelled from the spec: the descriptor's validating visibility setter
(`ServiceFilter.set_visibility`, not in the sources): it accepts the closed
set of levels "public" | "internal" | "admin" plus `None` meaning unset, and
rejects any other value with a validation error, assigning nothing. -/
def ServiceFilter.set_visibility (serv : ServiceFilter) (visibility : Option String) :
    Except SDKError ServiceFilter :=
  match visibility with
  | none => .ok { serv with visibility := none }
  | some v =>
      if v = "public" then .ok { serv with visibility := some .visPublic }
      else if v = "internal" then .ok { serv with visibility := some .visInternal }
      else if v = "admin" then .ok { serv with visibility := some .visAdmin }
      else .error (.ValidationError v)

instance {ε α : Type} [DecidableEq ε] [DecidableEq α] : DecidableEq (Except ε α) :=
  fun a b =>
    match a, b with
    | .ok x, .ok y =>
        if h : x = y then .isTrue (by rw [h]) else .isFalse (by simp [h])
    | .error x, .error y =>
        if h : x = y then .isTrue (by rw [h]) else .isFalse (by simp [h])
    | .ok _, .error _ => .isFalse (by simp)
    | .error _, .ok _ => .isFalse (by simp)

/-- Python `dict.get(key, None)` on an association list. -/
def alookup {β : Type} : List (String × β) → String → Option β
  | [], _ => none
  | (k, v) :: rest, s => if k = s then some v else alookup rest s

/-- Python `dict[key] = value`: replace in place if the key exists,
append otherwise. -/
def dinsert {β : Type} : List (String × β) → String → β → List (String × β)
  | [], k, d => [(k, d)]
  | (k0, v) :: rest, k, d =>
      if k0 = k then (k0, d) :: rest else (k0, v) :: dinsert rest k d

/-- In-place mutation of the object stored at an existing key: replace the
value if the key is present, leave the map unchanged otherwise.  (In the
source the descriptor object itself is mutated; here the authoritative copy
lives in `services`.) -/
def updateEntry {β : Type} : List (String × β) → String → β → List (String × β)
  | [], _, _ => []
  | (k0, v) :: rest, k, d =>
      if k0 = k then (k0, d) :: rest else (k0, v) :: updateEntry rest k d

/-- `self._preferences[service] = serv` where `serv` is exactly the object in
`self._services[service]`: since the two dicts alias the same descriptor
objects, `_preferences` is modelled as the list of touched keys, in dict
insertion order (re-insertion of a present key is a no-op on the key list). -/
def insertTouched (prefs : List String) (service : String) : List String :=
  if service ∈ prefs then prefs else prefs ++ [service]

/-- Keys of an association list, in order. -/
def keys {β : Type} (m : List (String × β)) : List String :=
  m.map Prod.fst

/-- Lexicographic (code-point) comparison on character lists: the order Python
`sorted` applies to strings. -/
def lexLe : List Char → List Char → Bool
  | [], _ => true
  | _ :: _, [] => false
  | a :: as, b :: bs =>
      if a.toNat < b.toNat then true
      else if a.toNat = b.toNat then lexLe as bs
      else false

/-- The string order used by Python `sorted`. -/
def strLe (a b : String) : Prop := lexLe a.data b.data = true

instance : DecidableRel strLe := fun a b => instDecidableEqBool (lexLe a.data b.data) true

/-- Sorted key list, as computed by Python `sorted(...)` at construction. -/
def sortStrings (l : List String) : List String :=
  l.insertionSort strLe

/-- The preference store: `_services` (service_type → descriptor, fixed keys),
`_preferences` (the touched subset, as the aliasing key list), and
`service_names` (sorted snapshot of the service keys, computed once). -/
structure UserPreference where
  services : List (String × ServiceFilter)
  preferences : List String
  service_names : List String
deriving DecidableEq

namespace UserPreference

/-- Wildcard service identifier representing all services. -/
def ALL : String := "*"

/-- Construction: for each resolved entry point's descriptor (in entry-map
order), call `serv.set_visibility(None)` — which by definition yields
`{ serv with visibility := none }` — and insert into `_services` keyed by
`serv.service_type` (silently overwriting on a duplicate key, as the source
does); `_preferences` starts empty; `service_names` is the sorted key list. -/
def init (entries : List ServiceFilter) : UserPreference :=
  let services := entries.foldl
    (fun m serv => dinsert m serv.service_type { serv with visibility := none }) []
  { services := services
    preferences := []
    service_names := sortStrings (keys services) }

/-- `get_preference`: `self._preferences.get(service, None)`.  Under the
aliasing model this is the current `_services` descriptor when the key was
touched, and `None` otherwise. -/
def get_preference (up : UserPreference) (service : String) : Option ServiceFilter :=
  if service ∈ up.preferences then alookup up.services service else none

/-- `get_services`: the list of all known descriptors, in map order. -/
def get_services (up : UserPreference) : List ServiceFilter :=
  up.services.map Prod.snd

/-- `_get_service`: look the service up in `_services`; if found, record it in
`_preferences` and return it; otherwise raise `SDKException` carrying the
invalid key and `self.service_names`. -/
def get_service (up : UserPreference) (service : String) :
    Except SDKError (ServiceFilter × UserPreference) :=
  match alookup up.services service with
  | some serv =>
      .ok (serv, { up with preferences := insertTouched up.preferences service })
  | none => .error (.UnknownServiceError service up.service_names)

/-- The common loop body of the four setters: for each service in the expanded
selector list, `self._get_service(service)` followed by the per-descriptor
action (a field assignment, or the descriptor's validating visibility setter).
On an exception the state reached so far is kept — Python mutations are not
rolled back. -/
def setterLoop (act : ServiceFilter → Except SDKError ServiceFilter) :
    List String → UserPreference → Except SDKError Unit × UserPreference
  | [], st => (.ok (), st)
  | s :: rest, st =>
      match st.get_service s with
      | .error e => (.error e, st)
      | .ok (serv, st1) =>
          match act serv with
          | .error e => (.error e, st1)
          | .ok serv2 =>
              setterLoop act rest { st1 with services := updateEntry st1.services s serv2 }

/-- Selector expansion: `ALL` expands to `self.service_names`, anything else
to the singleton list. -/
def expandSelector (up : UserPreference) (service : String) : List String :=
  if service = ALL then up.service_names else [service]

/-- `set_name(service, name)`: `self._get_service(service).service_name = name`
over the expanded selector. -/
def set_name (up : UserPreference) (service name : String) :
    Except SDKError Unit × UserPreference :=
  setterLoop (fun serv => .ok { serv with service_name := some name })
    (expandSelector up service) up

/-- `set_region(service, region)`: `self._get_service(service).region = region`
over the expanded selector. -/
def set_region (up : UserPreference) (service region : String) :
    Except SDKError Unit × UserPreference :=
  setterLoop (fun serv => .ok { serv with region := some region })
    (expandSelector up service) up

/-- `set_version(service, version)`:
`self._get_service(service).version = version` over the expanded selector. -/
def set_version (up : UserPreference) (service version : String) :
    Except SDKError Unit × UserPreference :=
  setterLoop (fun serv => .ok { serv with version := some version })
    (expandSelector up service) up

/-- `set_visibility(service, visibility)`:
`self._get_service(service).set_visibility(visibility)` over the expanded
selector; validation is the descriptor's. -/
def set_visibility (up : UserPreference) (service : String) (visibility : Option String) :
    Except SDKError Unit × UserPreference :=
  setterLoop (fun serv => serv.set_visibility visibility)
    (expandSelector up service) up

end UserPreference

/-- Role-lookup failure of `MultiProvider.__getattr__`: an `AttributeError`
carrying the class name and the missing attribute name. -/
inductive RoleLookupError where
  | AttributeError (typeName attrName : String)
deriving DecidableEq

/-- An ordered sequence of providers, each a role table (role name → binding);
`getattr(provider, name, None)` is association-list lookup. -/
structure MultiProvider (α : Type) where
  providers : List (List (String × α))

/-- `MultiProvider.__getattr__`: probe the members in order; return the first
binding found; raise `AttributeError` if no member defines the role. -/
def MultiProvider.getattr {α : Type} (mp : MultiProvider α) (name : String) :
    Except RoleLookupError α :=
  go mp.providers
where
  go : List (List (String × α)) → Except RoleLookupError α
    | [] => .error (.AttributeError "MultiProvider" name)
    | p :: rest =>
        match alookup p name with
        | some item => .ok item
        | none => go rest

/-! Concrete inputs used to exercise the definitions. -/

/-- A bare "compute" descriptor. -/
def computeDesc : ServiceFilter := { service_type := "compute" }

/-- A bare "identity" descriptor. -/
def identityDesc : ServiceFilter := { service_type := "identity" }

/-- A small store over the "compute" and "identity" services (entry-map order
deliberately unsorted). -/
def sampleStore : UserPreference := UserPreference.init [identityDesc, computeDesc]

/-- Two roles whose descriptors share the service_type "compute". -/
def collideA : ServiceFilter := { service_type := "compute", service_name := some "A" }

/-- Second colliding descriptor, distinguishable from `collideA`. -/
def collideB : ServiceFilter := { service_type := "compute", service_name := some "B" }

/-! Helper lemmas about the association-list and key-list primitives. -/

theorem lexLe_total : ∀ a b : List Char, lexLe a b = true ∨ lexLe b a = true := by
  intro a
  induction a with
  | nil => intro b; left; rfl
  | cons x xs ih =>
      intro b
      cases b with
      | nil => right; rfl
      | cons y ys =>
          by_cases hlt : x.toNat < y.toNat
          · left; simp [lexLe, hlt]
          · by_cases heq : x.toNat = y.toNat
            · rcases ih ys with h | h
              · left; simp [lexLe, hlt, heq, h]
              · right
                have hlt2 : ¬y.toNat < x.toNat := by omega
                simp [lexLe, hlt2, heq.symm, h]
            · right
              have : y.toNat < x.toNat := by omega
              simp [lexLe, this]

theorem lexLe_trans :
    ∀ a b c : List Char, lexLe a b = true → lexLe b c = true → lexLe a c = true := by
  intro a
  induction a with
  | nil => intro b c _ _; rfl
  | cons x xs ih =>
      intro b c hab hbc
      cases b with
      | nil => simp [lexLe] at hab
      | cons y ys =>
          cases c with
          | nil => simp [lexLe] at hbc
          | cons z zs =>
              simp only [lexLe] at hab hbc ⊢
              split_ifs at hab hbc ⊢ <;>
                first
                | rfl
                | omega
                | exact ih ys zs hab hbc

theorem alookup_updateEntry_self {β : Type} (m : List (String × β)) (k : String) (d : β) :
    alookup (updateEntry m k d) k = (alookup m k).map (fun _ => d) := by
  induction m with
  | nil => rfl
  | cons hd tl ih =>
      obtain ⟨k0, v⟩ := hd
      by_cases h : k0 = k <;> simp [updateEntry, alookup, h, ih]

theorem alookup_updateEntry_ne {β : Type} (m : List (String × β)) (k k' : String) (d : β)
    (h : k ≠ k') : alookup (updateEntry m k d) k' = alookup m k' := by
  induction m with
  | nil => rfl
  | cons hd tl ih =>
      obtain ⟨k0, v⟩ := hd
      by_cases h0 : k0 = k
      · subst h0
        simp [updateEntry, alookup, h]
      · by_cases h1 : k0 = k'
        · subst h1
          simp [updateEntry, alookup, h0]
        · simp [updateEntry, alookup, h0, h1, ih]

theorem keys_updateEntry {β : Type} (m : List (String × β)) (k : String) (d : β) :
    keys (updateEntry m k d) = keys m := by
  induction m with
  | nil => rfl
  | cons hd tl ih =>
      obtain ⟨k0, v⟩ := hd
      by_cases h : k0 = k
      · simp [updateEntry, keys, h]
      · simp [updateEntry, keys, h]
        simpa [keys] using ih

theorem mem_keys_iff_isSome {β : Type} (m : List (String × β)) (k : String) :
    k ∈ keys m ↔ (alookup m k).isSome := by
  induction m with
  | nil => simp [keys, alookup]
  | cons hd tl ih =>
      obtain ⟨k0, v⟩ := hd
      by_cases h : k0 = k
      · subst h; simp [keys, alookup]
      · simp only [keys, List.map_cons, List.mem_cons, alookup, if_neg h]
        rw [← keys] at *
        constructor
        · rintro (hk | hk)
          · exact absurd hk.symm h
          · exact ih.1 hk
        · intro hk
          exact Or.inr (ih.2 hk)

theorem alookup_dinsert_self {β : Type} (m : List (String × β)) (k : String) (d : β) :
    alookup (dinsert m k d) k = some d := by
  induction m with
  | nil => simp [dinsert, alookup]
  | cons hd tl ih =>
      obtain ⟨k0, v⟩ := hd
      by_cases h : k0 = k <;> simp [dinsert, alookup, h, ih]

theorem alookup_dinsert_ne {β : Type} (m : List (String × β)) (k k' : String) (d : β)
    (h : k ≠ k') : alookup (dinsert m k d) k' = alookup m k' := by
  induction m with
  | nil => simp [dinsert, alookup, h]
  | cons hd tl ih =>
      obtain ⟨k0, v⟩ := hd
      by_cases h0 : k0 = k
      · subst h0
        simp [dinsert, alookup, h]
      · by_cases h1 : k0 = k'
        · subst h1
          simp [dinsert, alookup, h0]
        · simp [dinsert, alookup, h0, h1, ih]

theorem keys_dinsert {β : Type} (m : List (String × β)) (k : String) (d : β) :
    keys (dinsert m k d) = if k ∈ keys m then keys m else keys m ++ [k] := by
  induction m with
  | nil => simp [dinsert, keys]
  | cons hd tl ih =>
      obtain ⟨k0, v⟩ := hd
      by_cases h : k0 = k
      · subst h; simp [dinsert, keys]
      · have hne : ¬k = k0 := fun hk => h hk.symm
        have hmem : (k ∈ keys ((k0, v) :: tl)) ↔ k ∈ keys tl := by
          simp [keys, hne]
        rw [dinsert, if_neg h]
        show k0 :: keys (dinsert tl k d) = _
        rw [ih]
        by_cases hm : k ∈ keys tl
        · rw [if_pos hm, if_pos (hmem.2 hm)]
          rfl
        · rw [if_neg hm, if_neg (fun hc => hm (hmem.1 hc))]
          rfl

theorem nodup_keys_dinsert {β : Type} (m : List (String × β)) (k : String) (d : β)
    (h : (keys m).Nodup) : (keys (dinsert m k d)).Nodup := by
  rw [keys_dinsert]
  split_ifs with hmem
  · exact h
  · simp [List.nodup_append, h, hmem]

theorem mem_insertTouched_self (l : List String) (s : String) : s ∈ insertTouched l s := by
  unfold insertTouched
  split_ifs with h <;> simp [h]

theorem mem_insertTouched_of_mem (l : List String) (s t : String) (h : t ∈ l) :
    t ∈ insertTouched l s := by
  unfold insertTouched
  split_ifs <;> simp [h]

theorem mem_of_mem_insertTouched (l : List String) (s t : String)
    (h : t ∈ insertTouched l s) : t ∈ l ∨ t = s := by
  unfold insertTouched at h
  split_ifs at h with h0
  · exact Or.inl h
  · simpa using h

namespace UserPreference

theorem get_service_some (st : UserPreference) (s : String) (serv : ServiceFilter)
    (h : alookup st.services s = some serv) :
    st.get_service s = .ok (serv, { st with preferences := insertTouched st.preferences s }) := by
  unfold get_service
  rw [h]

theorem get_service_none (st : UserPreference) (s : String)
    (h : alookup st.services s = none) :
    st.get_service s = .error (.UnknownServiceError s st.service_names) := by
  unfold get_service
  rw [h]

theorem get_service_ok (st : UserPreference) (s : String) (serv : ServiceFilter)
    (st1 : UserPreference) (h : st.get_service s = .ok (serv, st1)) :
    alookup st.services s = some serv ∧
      st1 = { st with preferences := insertTouched st.preferences s } := by
  cases halk : alookup st.services s with
  | none =>
      rw [get_service_none st s halk] at h
      exact absurd h (by simp)
  | some v =>
      rw [get_service_some st s v halk] at h
      simp only [Except.ok.injEq, Prod.mk.injEq] at h
      exact ⟨by rw [h.1], h.2.symm⟩


theorem get_preference_touched (st : UserPreference) (t : String)
    (h : t ∈ st.preferences) : st.get_preference t = alookup st.services t := by
  unfold get_preference
  rw [if_pos h]

theorem setterLoop_keys (act : ServiceFilter → Except SDKError ServiceFilter) :
    ∀ (l : List String) (st : UserPreference),
      keys ((setterLoop act l st).2).services = keys st.services := by
  intro l
  induction l with
  | nil => intro st; rfl
  | cons s rest ih =>
      intro st
      cases hgs : st.get_service s with
      | error e => simp [setterLoop, hgs]
      | ok p =>
          obtain ⟨serv, st1⟩ := p
          obtain ⟨halk, hst1⟩ := get_service_ok st s serv st1 hgs
          subst hst1
          cases hact : act serv with
          | error e => simp [setterLoop, hgs, hact]
          | ok serv2 =>
              simp only [setterLoop, hgs, hact]
              rw [ih]
              simp [keys_updateEntry]

theorem setterLoop_prefs_mono (act : ServiceFilter → Except SDKError ServiceFilter) :
    ∀ (l : List String) (st : UserPreference) (t : String),
      t ∈ st.preferences → t ∈ ((setterLoop act l st).2).preferences := by
  intro l
  induction l with
  | nil => intro st t h; exact h
  | cons s rest ih =>
      intro st t h
      cases hgs : st.get_service s with
      | error e => simpa [setterLoop, hgs] using h
      | ok p =>
          obtain ⟨serv, st1⟩ := p
          obtain ⟨halk, hst1⟩ := get_service_ok st s serv st1 hgs
          subst hst1
          cases hact : act serv with
          | error e =>
              simp only [setterLoop, hgs, hact]
              exact mem_insertTouched_of_mem _ _ _ h
          | ok serv2 =>
              simp only [setterLoop, hgs, hact]
              exact ih _ t (mem_insertTouched_of_mem _ _ _ h)

theorem setterLoop_prefs_sub (act : ServiceFilter → Except SDKError ServiceFilter) :
    ∀ (l : List String) (st : UserPreference),
      (∀ t ∈ st.preferences, t ∈ keys st.services) →
      ∀ t ∈ ((setterLoop act l st).2).preferences, t ∈ keys st.services := by
  intro l
  induction l with
  | nil => intro st h t ht; exact h t ht
  | cons s rest ih =>
      intro st h t ht
      cases hgs : st.get_service s with
      | error e =>
          simp only [setterLoop, hgs] at ht
          exact h t ht
      | ok p =>
          obtain ⟨serv, st1⟩ := p
          obtain ⟨halk, hst1⟩ := get_service_ok st s serv st1 hgs
          subst hst1
          have hstep : ∀ u ∈ insertTouched st.preferences s, u ∈ keys st.services := by
            intro u hu
            rcases mem_of_mem_insertTouched _ _ _ hu with hu | hu
            · exact h u hu
            · subst hu
              rw [mem_keys_iff_isSome, halk]
              rfl
          cases hact : act serv with
          | error e =>
              simp only [setterLoop, hgs, hact] at ht
              exact hstep t ht
          | ok serv2 =>
              simp only [setterLoop, hgs, hact] at ht
              have := ih _ (fun u hu => by
                  show u ∈ keys (updateEntry st.services s serv2)
                  rw [keys_updateEntry]
                  exact hstep u hu) t ht
              rw [keys_updateEntry] at this
              exact this

theorem setterLoop_inv (act : ServiceFilter → Except SDKError ServiceFilter)
    (l : List String) (st : UserPreference)
    (h : ∀ t ∈ st.preferences, t ∈ keys st.services) :
    ∀ t ∈ ((setterLoop act l st).2).preferences,
      t ∈ keys ((setterLoop act l st).2).services := by
  intro t ht
  rw [setterLoop_keys]
  exact setterLoop_prefs_sub act l st h t ht

theorem setterLoop_append (act : ServiceFilter → Except SDKError ServiceFilter) :
    ∀ (l1 l2 : List String) (st : UserPreference),
      setterLoop act (l1 ++ l2) st =
        match setterLoop act l1 st with
        | (Except.ok _, st1) => setterLoop act l2 st1
        | (Except.error e, st1) => (Except.error e, st1) := by
  intro l1
  induction l1 with
  | nil => intro l2 st; rfl
  | cons s rest ih =>
      intro l2 st
      cases hgs : st.get_service s with
      | error e => simp [setterLoop, hgs]
      | ok p =>
          obtain ⟨serv, st1⟩ := p
          cases hact : act serv with
          | error e => simp [setterLoop, hgs, hact]
          | ok serv2 =>
              simp only [List.cons_append, setterLoop, hgs, hact]
              exact ih l2 _

theorem setterLoop_map_ok (f : ServiceFilter → ServiceFilter) :
    ∀ (l : List String) (st : UserPreference),
      (∀ s ∈ l, (alookup st.services s).isSome) →
      ∃ st', setterLoop (fun sv => .ok (f sv)) l st = (.ok (), st') := by
  intro l
  induction l with
  | nil => intro st _; exact ⟨st, rfl⟩
  | cons s rest ih =>
      intro st h
      have hs := h s (by simp)
      cases halk : alookup st.services s with
      | none => rw [halk] at hs; simp at hs
      | some serv =>
          have hgs := get_service_some st s serv halk
          simp only [setterLoop, hgs]
          apply ih
          intro t ht
          have hmem := h t (List.mem_cons_of_mem _ ht)
          rw [← mem_keys_iff_isSome] at hmem ⊢
          show t ∈ keys (updateEntry st.services s (f serv))
          rw [keys_updateEntry]
          exact hmem

theorem setterLoop_map_preserve (f : ServiceFilter → ServiceFilter)
    (P : ServiceFilter → Prop) (hP : ∀ serv, P (f serv)) :
    ∀ (l : List String) (st : UserPreference) (t : String),
      (∃ d, alookup st.services t = some d ∧ P d) → t ∈ st.preferences →
      (∃ d, alookup ((setterLoop (fun sv => .ok (f sv)) l st).2).services t = some d ∧ P d) ∧
        t ∈ ((setterLoop (fun sv => .ok (f sv)) l st).2).preferences := by
  intro l
  induction l with
  | nil => intro st t hd hm; exact ⟨hd, hm⟩
  | cons s rest ih =>
      intro st t hd hm
      cases hgs : st.get_service s with
      | error e =>
          simp only [setterLoop, hgs]
          exact ⟨hd, hm⟩
      | ok p =>
          obtain ⟨serv, st1⟩ := p
          obtain ⟨halk, hst1⟩ := get_service_ok st s serv st1 hgs
          subst hst1
          simp only [setterLoop, hgs]
          apply ih
          · by_cases hts : s = t
            · subst hts
              refine ⟨f serv, ?_, hP serv⟩
              show alookup (updateEntry st.services s (f serv)) s = some (f serv)
              rw [alookup_updateEntry_self, halk]
              rfl
            · obtain ⟨d, hd1, hd2⟩ := hd
              refine ⟨d, ?_, hd2⟩
              show alookup (updateEntry st.services s (f serv)) t = some d
              rw [alookup_updateEntry_ne _ _ _ _ hts]
              exact hd1
          · exact mem_insertTouched_of_mem _ _ _ hm

theorem setterLoop_map_post (f : ServiceFilter → ServiceFilter)
    (P : ServiceFilter → Prop) (hP : ∀ serv, P (f serv)) :
    ∀ (l : List String) (st : UserPreference),
      (setterLoop (fun sv => .ok (f sv)) l st).1 = .ok () →
      ∀ s ∈ l,
        (∃ d, alookup ((setterLoop (fun sv => .ok (f sv)) l st).2).services s = some d ∧ P d) ∧
          s ∈ ((setterLoop (fun sv => .ok (f sv)) l st).2).preferences := by
  intro l
  induction l with
  | nil => intro st _ s hs; simp at hs
  | cons s0 rest ih =>
      intro st h t ht
      cases hgs : st.get_service s0 with
      | error e =>
          rw [show setterLoop (fun sv => .ok (f sv)) (s0 :: rest) st = (.error e, st) by
            simp [setterLoop, hgs]] at h
          exact absurd h (by simp)
      | ok p =>
          obtain ⟨serv, st1⟩ := p
          obtain ⟨halk, hst1⟩ := get_service_ok st s0 serv st1 hgs
          subst hst1
          simp only [setterLoop, hgs] at h ⊢
          rcases List.mem_cons.1 ht with hts | hts
          · subst hts
            refine setterLoop_map_preserve f P hP rest _ t ⟨f serv, ?_, hP serv⟩ ?_
            · show alookup (updateEntry st.services t (f serv)) t = some (f serv)
              rw [alookup_updateEntry_self, halk]
              rfl
            · show t ∈ insertTouched st.preferences t
              exact mem_insertTouched_self _ _
          · exact ih _ h t hts

theorem expandSelector_ne (up : UserPreference) (s : String) (h : s ≠ ALL) :
    up.expandSelector s = [s] := by
  unfold expandSelector
  rw [if_neg h]

theorem expandSelector_all (up : UserPreference) :
    up.expandSelector ALL = up.service_names := by
  unfold expandSelector
  rw [if_pos rfl]

theorem setterLoop_single_none (act : ServiceFilter → Except SDKError ServiceFilter)
    (st : UserPreference) (s : String) (halk : alookup st.services s = none) :
    setterLoop act [s] st = (.error (.UnknownServiceError s st.service_names), st) := by
  simp [setterLoop, get_service_none st s halk]

theorem setterLoop_single_some (act : ServiceFilter → Except SDKError ServiceFilter)
    (st : UserPreference) (s : String) (serv : ServiceFilter)
    (halk : alookup st.services s = some serv) :
    setterLoop act [s] st =
      match act serv with
      | .ok serv2 =>
          (.ok (), { st with preferences := insertTouched st.preferences s,
                             services := updateEntry st.services s serv2 })
      | .error e => (.error e, { st with preferences := insertTouched st.preferences s }) := by
  have hgs := get_service_some st s serv halk
  cases hact : act serv <;> simp [setterLoop, hgs, hact]

theorem setterLoop_single_preserves_other
    (act : ServiceFilter → Except SDKError ServiceFilter)
    (up : UserPreference) (t s : String) (hts : t ≠ s) :
    ((setterLoop act [t] up).2).get_preference s = up.get_preference s := by
  have hmem : ∀ l : List String, (s ∈ insertTouched l t) ↔ s ∈ l := by
    intro l
    constructor
    · intro h
      rcases mem_of_mem_insertTouched _ _ _ h with h | h
      · exact h
      · exact absurd h.symm hts
    · exact mem_insertTouched_of_mem _ _ _
  cases halk : alookup up.services t with
  | none => rw [setterLoop_single_none act up t halk]
  | some serv =>
      rw [setterLoop_single_some act up t serv halk]
      cases hact : act serv with
      | ok serv2 =>
          simp only [hact]
          unfold get_preference
          dsimp only
          by_cases hp : s ∈ up.preferences
          · rw [if_pos ((hmem _).2 hp), if_pos hp]
            exact alookup_updateEntry_ne _ _ _ _ hts
          · rw [if_neg (fun hc => hp ((hmem _).1 hc)), if_neg hp]
      | error e =>
          simp only [hact]
          unfold get_preference
          dsimp only
          by_cases hp : s ∈ up.preferences
          · rw [if_pos ((hmem _).2 hp), if_pos hp]
          · rw [if_neg (fun hc => hp ((hmem _).1 hc)), if_neg hp]

theorem setterLoop_ok_touches (act : ServiceFilter → Except SDKError ServiceFilter) :
    ∀ (l : List String) (st : UserPreference),
      (setterLoop act l st).1 = .ok () →
      ∀ s ∈ l, s ∈ ((setterLoop act l st).2).preferences ∧
        (alookup ((setterLoop act l st).2).services s).isSome := by
  intro l
  induction l with
  | nil => intro st _ s hs; simp at hs
  | cons s0 rest ih =>
      intro st hok t ht
      cases hgs : st.get_service s0 with
      | error e =>
          have h1 : (setterLoop act (s0 :: rest) st).1 = .error e := by
            simp [setterLoop, hgs]
          rw [h1] at hok
          exact absurd hok (by simp)
      | ok p =>
          obtain ⟨serv, st1⟩ := p
          obtain ⟨halk, hst1⟩ := get_service_ok st s0 serv st1 hgs
          subst hst1
          cases hact : act serv with
          | error e =>
              have h1 : (setterLoop act (s0 :: rest) st).1 = .error e := by
                simp [setterLoop, hgs, hact]
              rw [h1] at hok
              exact absurd hok (by simp)
          | ok serv2 =>
              simp only [setterLoop, hgs, hact] at hok ⊢
              rcases List.mem_cons.1 ht with hts | hts
              · subst hts
                constructor
                · apply setterLoop_prefs_mono
                  show t ∈ insertTouched st.preferences t
                  exact mem_insertTouched_self _ _
                · rw [← mem_keys_iff_isSome, setterLoop_keys]
                  show t ∈ keys (updateEntry st.services t serv2)
                  rw [keys_updateEntry, mem_keys_iff_isSome, halk]
                  rfl
              · exact ih _ hok t hts

theorem setterLoop_ok_touch_present
    (act : ServiceFilter → Except SDKError ServiceFilter)
    (l : List String) (st : UserPreference)
    (hok : (setterLoop act l st).1 = .ok ()) (s : String) (hs : s ∈ l) :
    ((setterLoop act l st).2).get_preference s =
        alookup ((setterLoop act l st).2).services s ∧
      (((setterLoop act l st).2).get_preference s).isSome := by
  obtain ⟨hmem, hsome⟩ := setterLoop_ok_touches act l st hok s hs
  have heq := get_preference_touched _ s hmem
  exact ⟨heq, by rw [heq]; exact hsome⟩

end UserPreference

theorem sortStrings_perm (l : List String) : (sortStrings l).Perm l :=
  List.perm_insertionSort strLe l

theorem sortStrings_sorted (l : List String) : List.Sorted strLe (sortStrings l) := by
  haveI : IsTotal String strLe := ⟨fun a b => lexLe_total a.data b.data⟩
  haveI : IsTrans String strLe := ⟨fun a b c => lexLe_trans a.data b.data c.data⟩
  exact List.sorted_insertionSort strLe l

theorem mem_sortStrings (l : List String) (k : String) : k ∈ sortStrings l ↔ k ∈ l :=
  (sortStrings_perm l).mem_iff

theorem nodup_sortStrings (l : List String) (h : l.Nodup) : (sortStrings l).Nodup :=
  ((sortStrings_perm l).nodup_iff).2 h

theorem nodup_keys_foldl_dinsert (entries : List ServiceFilter) :
    ∀ m : List (String × ServiceFilter), (keys m).Nodup →
      (keys (entries.foldl
        (fun m serv => dinsert m serv.service_type { serv with visibility := none })
        m)).Nodup := by
  induction entries with
  | nil => intro m h; exact h
  | cons entry rest ih => intro m h; exact ih _ (nodup_keys_dinsert _ _ _ h)

/-! Claim theorems. -/

/-- C8: for every `MultiProvider` built from an ordered sequence of providers
and every role name, `__getattr__` probes the members in the given order and
returns the binding of the first member that defines the role (`findSome?` over
the member list); if no member defines it, the lookup fails with an
`AttributeError`. -/
theorem C8_multiprovider_first_binding {α : Type} (mp : MultiProvider α) (name : String) :
    mp.getattr name =
      match mp.providers.findSome? (fun p => alookup p name) with
      | some b => Except.ok b
      | none => Except.error (.AttributeError "MultiProvider" name) := by
  obtain ⟨ps⟩ := mp
  show MultiProvider.getattr.go name ps =
    match ps.findSome? (fun p => alookup p name) with
    | some b => Except.ok b
    | none => Except.error (.AttributeError "MultiProvider" name)
  induction ps with
  | nil => rfl
  | cons p rest ih =>
      cases h : alookup p name with
      | some b => simp [MultiProvider.getattr.go, List.findSome?_cons, h]
      | none => simp [MultiProvider.getattr.go, List.findSome?_cons, h, ih]

/-- C1 counterexample: on a store knowing only "compute" and "identity", calling
`get_preference` with the unknown service_type "bogus" returns the absent
result `none` — it does not raise; `get_preference` is `_preferences.get(service, None)`
and is total. -/
theorem C1_cex :
    "bogus" ∉ keys sampleStore.services ∧ sampleStore.get_preference "bogus" = none := by
  constructor
  · decide
  · decide

/-- C1 (amended): for every service_type absent from the store's services map,
`get_preference` returns the absent result `none` rather than raising;
only the setters (via `_get_service`) raise `UnknownServiceError`. -/
theorem C1_get_preference_absent (up : UserPreference) (s : String)
    (h : alookup up.services s = none) : up.get_preference s = none := by
  unfold UserPreference.get_preference
  split_ifs with hm
  · exact h
  · rfl

/-- C1 witness: the amended claim at a concrete input. -/
theorem C1_witness : sampleStore.get_preference "bogus" = none :=
  C1_get_preference_absent sampleStore "bogus" (by decide)

/-- C2 (divergence witness): constructing a store from two roles whose
descriptors share the service_type "compute" does not fail: the earlier entry
is silently overwritten by the later one, exactly the reference behavior the
spec flags as a bug and requires an implementation to reject. -/
theorem C2_collision_overwrites :
    (UserPreference.init [collideA, collideB]).services =
      [("compute", { collideB with visibility := none })] ∧
    ({ collideB with visibility := none } : ServiceFilter) ≠
      { collideA with visibility := none } := by
  constructor
  · decide
  · decide

/-- C6: on a freshly constructed store `get_preference` is absent (`none`) for
every service_type; the `get_preference` view of `s` (absence in particular)
is preserved by any of the four setters invoked with an explicit selector
other than `s`, whatever the call's outcome; and once a successful call of any
of the four setters touches `s` — its expanded selector contains `s`, i.e. it
was invoked with `s` itself or with `ALL` while `s` is listed in
`service_names` — `get_preference s` returns `s`'s live descriptor (a present
value): never-customized and customized states stay distinguishable. -/
theorem C6_absent_until_touched :
    (∀ (entries : List ServiceFilter) (s : String),
      (UserPreference.init entries).get_preference s = none) ∧
    (∀ (up : UserPreference) (s t v : String), t ≠ UserPreference.ALL → t ≠ s →
      (up.set_name t v).2.get_preference s = up.get_preference s ∧
      (up.set_region t v).2.get_preference s = up.get_preference s ∧
      (up.set_version t v).2.get_preference s = up.get_preference s ∧
      ∀ vis : Option String,
        (up.set_visibility t vis).2.get_preference s = up.get_preference s) ∧
    (∀ (up : UserPreference) (sel s v : String), s ∈ up.expandSelector sel →
      ((up.set_name sel v).1 = .ok () →
        (up.set_name sel v).2.get_preference s =
            alookup ((up.set_name sel v).2).services s ∧
          (((up.set_name sel v).2).get_preference s).isSome) ∧
      ((up.set_region sel v).1 = .ok () →
        (up.set_region sel v).2.get_preference s =
            alookup ((up.set_region sel v).2).services s ∧
          (((up.set_region sel v).2).get_preference s).isSome) ∧
      ((up.set_version sel v).1 = .ok () →
        (up.set_version sel v).2.get_preference s =
            alookup ((up.set_version sel v).2).services s ∧
          (((up.set_version sel v).2).get_preference s).isSome) ∧
      ∀ vis : Option String, (up.set_visibility sel vis).1 = .ok () →
        (up.set_visibility sel vis).2.get_preference s =
            alookup ((up.set_visibility sel vis).2).services s ∧
          (((up.set_visibility sel vis).2).get_preference s).isSome) := by
  refine ⟨?_, ?_, ?_⟩
  · intro entries s
    rfl
  · intro up s t v htALL hts
    have hexp := UserPreference.expandSelector_ne up t htALL
    unfold UserPreference.set_name UserPreference.set_region UserPreference.set_version
      UserPreference.set_visibility
    rw [hexp]
    exact ⟨UserPreference.setterLoop_single_preserves_other _ up t s hts,
      UserPreference.setterLoop_single_preserves_other _ up t s hts,
      UserPreference.setterLoop_single_preserves_other _ up t s hts,
      fun vis => UserPreference.setterLoop_single_preserves_other _ up t s hts⟩
  · intro up sel s v hs
    unfold UserPreference.set_name UserPreference.set_region UserPreference.set_version
      UserPreference.set_visibility
    exact ⟨fun hok => UserPreference.setterLoop_ok_touch_present _ _ up hok s hs,
      fun hok => UserPreference.setterLoop_ok_touch_present _ _ up hok s hs,
      fun hok => UserPreference.setterLoop_ok_touch_present _ _ up hok s hs,
      fun vis hok => UserPreference.setterLoop_ok_touch_present _ _ up hok s hs⟩

/-- C6 witness: the three parts at concrete inputs — fresh absence, absence of
"identity" preserved across a setter invoked with "compute", and presence of
"compute" after a successful `set_version("compute", "v3")`. -/
theorem C6_witness :
    ((UserPreference.init [computeDesc]).get_preference "compute" = none) ∧
    ((sampleStore.set_name "compute" "x").2.get_preference "identity" =
      sampleStore.get_preference "identity") ∧
    ((sampleStore.set_version "compute" "v3").2.get_preference "compute" =
        alookup ((sampleStore.set_version "compute" "v3").2).services "compute" ∧
      (((sampleStore.set_version "compute" "v3").2).get_preference "compute").isSome) :=
  ⟨C6_absent_until_touched.1 [computeDesc] "compute",
   (C6_absent_until_touched.2.1 sampleStore "identity" "compute" "x"
     (by decide) (by decide)).1,
   (C6_absent_until_touched.2.2 sampleStore "compute" "compute" "v3"
     (by decide)).2.2.1 (by decide)⟩

/-- C9: `set_region("compute", "zion")` mutates only the "compute" descriptor:
whatever the outcome, every other service_type still maps to a structurally
equal descriptor. -/
theorem C9_set_region_frame (up : UserPreference)
    (r : Except SDKError Unit) (st' : UserPreference)
    (h : up.set_region "compute" "zion" = (r, st')) :
    ∀ s, s ≠ "compute" → alookup st'.services s = alookup up.services s := by
  intro s hs
  unfold UserPreference.set_region at h
  rw [UserPreference.expandSelector_ne up "compute" (by decide)] at h
  cases halk : alookup up.services "compute" with
  | none =>
      rw [UserPreference.setterLoop_single_none _ up _ halk] at h
      cases h
      rfl
  | some serv =>
      rw [UserPreference.setterLoop_single_some _ up _ serv halk] at h
      dsimp only at h
      cases h
      show alookup (updateEntry up.services "compute" { serv with region := some "zion" }) s
        = alookup up.services s
      exact alookup_updateEntry_ne _ _ _ _ fun hc => hs hc.symm

/-- C9 witness: on the sample store the "identity" descriptor is unchanged by
`set_region("compute", "zion")`. -/
theorem C9_witness :
    alookup ((sampleStore.set_region "compute" "zion").2).services "identity" =
      alookup sampleStore.services "identity" :=
  C9_set_region_frame sampleStore (sampleStore.set_region "compute" "zion").1
    (sampleStore.set_region "compute" "zion").2 rfl "identity" (by decide)

/-- C10: a failed `set_visibility` on a known service is not atomic: the
service is recorded in `_preferences` by `_get_service` before the descriptor
validator raises, so after the failure `get_preference` returns the
(unmodified) descriptor rather than the absent result, while `services` itself
is unchanged. -/
theorem C10_failed_set_visibility_not_atomic (up : UserPreference) (s : String)
    (v : Option String) (serv : ServiceFilter) (e : SDKError)
    (hne : s ≠ UserPreference.ALL)
    (halk : alookup up.services s = some serv)
    (herr : serv.set_visibility v = .error e) :
    ∃ st', up.set_visibility s v = (.error e, st') ∧
      st'.services = up.services ∧ s ∈ st'.preferences ∧
      st'.get_preference s = some serv := by
  refine ⟨{ up with preferences := insertTouched up.preferences s }, ?_, rfl, ?_, ?_⟩
  · unfold UserPreference.set_visibility
    rw [UserPreference.expandSelector_ne up s hne,
      UserPreference.setterLoop_single_some _ up s serv halk]
    rw [herr]
  · exact mem_insertTouched_self _ _
  · rw [UserPreference.get_preference_touched _ s (mem_insertTouched_self _ _)]
    exact halk

/-- C10 witness: rejecting visibility "bogus" on "compute" still records
"compute" as touched, and `get_preference` then returns its descriptor. -/
theorem C10_witness :
    ∃ st', sampleStore.set_visibility "compute" (some "bogus") =
        (.error (.ValidationError "bogus"), st') ∧
      st'.services = sampleStore.services ∧ "compute" ∈ st'.preferences ∧
      st'.get_preference "compute" = some computeDesc :=
  C10_failed_set_visibility_not_atomic sampleStore "compute" (some "bogus")
    computeDesc (.ValidationError "bogus") (by decide) (by decide) (by decide)

/-- C3: every setter called with an unknown explicit service_type raises
`UnknownServiceError` carrying the invalid key and `service_names`, and leaves
the whole store (both maps) exactly as it was; for a constructed store
`service_names` is precisely the sorted list of the valid keys. -/
theorem C3_unknown_service_fails_clean :
    (∀ (up : UserPreference) (s : String), s ≠ UserPreference.ALL →
      alookup up.services s = none →
      ∀ v : String,
        up.set_name s v = (.error (.UnknownServiceError s up.service_names), up) ∧
        up.set_region s v = (.error (.UnknownServiceError s up.service_names), up) ∧
        up.set_version s v = (.error (.UnknownServiceError s up.service_names), up) ∧
        ∀ vis : Option String,
          up.set_visibility s vis =
            (.error (.UnknownServiceError s up.service_names), up)) ∧
    (∀ entries : List ServiceFilter,
      List.Sorted strLe (UserPreference.init entries).service_names ∧
      ∀ k, k ∈ (UserPreference.init entries).service_names ↔
        (alookup (UserPreference.init entries).services k).isSome) := by
  constructor
  · intro up s hne halk v
    have hgen : ∀ act, UserPreference.setterLoop act (up.expandSelector s) up =
        (.error (.UnknownServiceError s up.service_names), up) := by
      intro act
      rw [UserPreference.expandSelector_ne up s hne,
        UserPreference.setterLoop_single_none act up s halk]
    exact ⟨hgen _, hgen _, hgen _, fun vis => hgen _⟩
  · intro entries
    constructor
    · show List.Sorted strLe
        (sortStrings (keys ((UserPreference.init entries).services)))
      exact sortStrings_sorted _
    · intro k
      show k ∈ sortStrings (keys ((UserPreference.init entries).services)) ↔ _
      rw [mem_sortStrings, mem_keys_iff_isSome]

/-- C3 witness: `set_name("bogus", "x")` on the sample store raises with the
invalid key and the full sorted valid-key list, returning the store
unchanged. -/
theorem C3_witness :
    (sampleStore.set_name "bogus" "x" =
      (.error (.UnknownServiceError "bogus" ["compute", "identity"]), sampleStore)) ∧
    List.Sorted strLe (UserPreference.init [identityDesc, computeDesc]).service_names := by
  constructor
  · rw [← show sampleStore.service_names = ["compute", "identity"] from by decide]
    exact (C3_unknown_service_fails_clean.1 sampleStore "bogus" (by decide) (by decide) "x").1
  · exact (C3_unknown_service_fails_clean.2 [identityDesc, computeDesc]).1

/-- C7: the key-set invariant: after construction the touched set is contained
in the service keys (it is empty), and every setter — whatever its outcome —
leaves the service key set unchanged and preserves containment of the touched
set in the service keys. -/
theorem C7_keyset_invariant :
    (∀ entries : List ServiceFilter, ∀ t ∈ (UserPreference.init entries).preferences,
      t ∈ keys ((UserPreference.init entries).services)) ∧
    (∀ (up : UserPreference) (s v : String),
      keys ((up.set_name s v).2.services) = keys up.services ∧
      keys ((up.set_region s v).2.services) = keys up.services ∧
      keys ((up.set_version s v).2.services) = keys up.services ∧
      ∀ vis : Option String,
        keys ((up.set_visibility s vis).2.services) = keys up.services) ∧
    (∀ (up : UserPreference) (s v : String),
      (∀ t ∈ up.preferences, t ∈ keys up.services) →
      (∀ t ∈ (up.set_name s v).2.preferences,
        t ∈ keys ((up.set_name s v).2.services)) ∧
      (∀ t ∈ (up.set_region s v).2.preferences,
        t ∈ keys ((up.set_region s v).2.services)) ∧
      (∀ t ∈ (up.set_version s v).2.preferences,
        t ∈ keys ((up.set_version s v).2.services)) ∧
      ∀ vis : Option String, ∀ t ∈ (up.set_visibility s vis).2.preferences,
        t ∈ keys ((up.set_visibility s vis).2.services)) := by
  refine ⟨?_, ?_, ?_⟩
  · intro entries t ht
    have hnil : (UserPreference.init entries).preferences = [] := rfl
    rw [hnil] at ht
    simp at ht
  · intro up s v
    exact ⟨UserPreference.setterLoop_keys _ _ up, UserPreference.setterLoop_keys _ _ up,
      UserPreference.setterLoop_keys _ _ up,
      fun vis => UserPreference.setterLoop_keys _ _ up⟩
  · intro up s v h
    exact ⟨UserPreference.setterLoop_inv _ _ up h, UserPreference.setterLoop_inv _ _ up h,
      UserPreference.setterLoop_inv _ _ up h,
      fun vis => UserPreference.setterLoop_inv _ _ up h⟩

/-- C7 witness: the invariant at a concrete store and operation. -/
theorem C7_witness :
    keys ((sampleStore.set_name "compute" "x").2.services) = keys sampleStore.services ∧
    "compute" ∈ keys ((sampleStore.set_name "compute" "x").2.services) :=
  ⟨(C7_keyset_invariant.2.1 sampleStore "compute" "x").1,
   (C7_keyset_invariant.2.2 sampleStore "compute" "x" (by decide)).1 "compute" (by decide)⟩

/-- C5: after `set_name(ALL, name)` succeeds, every service in `service_names`
reports that name through `get_preference`; `ALL` expands to `service_names`
(the sorted, duplicate-free key list for constructed stores) and each
per-service step is the same single-service loop body. -/
theorem C5_wildcard_set_name :
    (∀ (up : UserPreference) (name : String),
      (∀ s ∈ up.service_names, (alookup up.services s).isSome) →
      (up.set_name UserPreference.ALL name).1 = .ok () ∧
      ∀ s ∈ up.service_names, ∃ d,
        (up.set_name UserPreference.ALL name).2.get_preference s = some d ∧
          d.service_name = some name) ∧
    (∀ (up : UserPreference) (name : String),
      up.set_name UserPreference.ALL name =
        UserPreference.setterLoop (fun sv => .ok { sv with service_name := some name })
          up.service_names up) ∧
    (∀ (up : UserPreference) (s name : String), s ≠ UserPreference.ALL →
      up.set_name s name =
        UserPreference.setterLoop (fun sv => .ok { sv with service_name := some name })
          [s] up) ∧
    (∀ entries : List ServiceFilter,
      (UserPreference.init entries).service_names.Nodup ∧
      List.Sorted strLe (UserPreference.init entries).service_names) := by
  have hdef : ∀ (up : UserPreference) (name : String),
      up.set_name UserPreference.ALL name =
        UserPreference.setterLoop (fun sv => .ok { sv with service_name := some name })
          up.service_names up := by
    intro up name
    unfold UserPreference.set_name
    rw [UserPreference.expandSelector_all]
  refine ⟨?_, hdef, ?_, ?_⟩
  · intro up name h
    obtain ⟨st', hok⟩ := UserPreference.setterLoop_map_ok
      (fun sv => { sv with service_name := some name }) up.service_names up h
    rw [hdef, hok]
    refine ⟨rfl, ?_⟩
    intro s hs
    have hpost := UserPreference.setterLoop_map_post
      (fun sv => { sv with service_name := some name })
      (fun d => d.service_name = some name) (fun serv => rfl)
      up.service_names up (by rw [hok]) s hs
    rw [hok] at hpost
    obtain ⟨⟨d, hd1, hd2⟩, hmem⟩ := hpost
    refine ⟨d, ?_, hd2⟩
    rw [UserPreference.get_preference_touched st' s hmem]
    exact hd1
  · intro up s name hne
    unfold UserPreference.set_name
    rw [UserPreference.expandSelector_ne up s hne]
  · intro entries
    constructor
    · show (sortStrings (keys ((UserPreference.init entries).services))).Nodup
      exact nodup_sortStrings _ (nodup_keys_foldl_dinsert entries [] (by simp [keys]))
    · show List.Sorted strLe
        (sortStrings (keys ((UserPreference.init entries).services)))
      exact sortStrings_sorted _

/-- C5 witness: the broadcast at a concrete store, observed on "compute". -/
theorem C5_witness :
    ((sampleStore.set_name UserPreference.ALL "x").1 = .ok ()) ∧
    (∃ d, (sampleStore.set_name UserPreference.ALL "x").2.get_preference "compute" =
        some d ∧ d.service_name = some "x") :=
  ⟨(C5_wildcard_set_name.1 sampleStore "x" (by decide)).1,
   (C5_wildcard_set_name.1 sampleStore "x" (by decide)).2 "compute" (by decide)⟩

/-- C4: a wildcard setter is not transactional: if the sorted expansion is
`l1 ++ s :: l2`, the prefix `l1` processed fine (state `st1`), and the
descriptor validator rejects the value at `s` (after `_get_service` has
already recorded `s`, state `st2`), then the whole `ALL` call returns exactly
the partially mutated state `st2` — the prefix updates stay committed, nothing
is rolled back — and surfaces the very error `e`. -/
theorem C4_wildcard_not_transactional (up : UserPreference) (v : Option String)
    (l1 : List String) (s : String) (l2 : List String)
    (st1 : UserPreference) (serv : ServiceFilter) (st2 : UserPreference) (e : SDKError)
    (hsplit : up.service_names = l1 ++ s :: l2)
    (hpre : UserPreference.setterLoop (fun sv => sv.set_visibility v) l1 up =
      (.ok (), st1))
    (hgs : st1.get_service s = .ok (serv, st2))
    (herr : serv.set_visibility v = .error e) :
    up.set_visibility UserPreference.ALL v = (.error e, st2) := by
  unfold UserPreference.set_visibility
  rw [UserPreference.expandSelector_all, hsplit,
    UserPreference.setterLoop_append _ l1 (s :: l2) up, hpre]
  show UserPreference.setterLoop (fun sv => sv.set_visibility v) (s :: l2) st1 =
    (.error e, st2)
  simp [UserPreference.setterLoop, hgs, herr]

/-- C4 witness: broadcasting the invalid visibility "bogus" over the sample
store fails at "compute" yet leaves the store mutated ("compute" is recorded
as touched), with the validator's error surfaced unchanged. -/
theorem C4_witness :
    sampleStore.set_visibility UserPreference.ALL (some "bogus") =
      (.error (.ValidationError "bogus"), { sampleStore with preferences := ["compute"] }) ∧
    ({ sampleStore with preferences := ["compute"] } : UserPreference) ≠ sampleStore := by
  constructor
  · exact C4_wildcard_not_transactional sampleStore (some "bogus") [] "compute" ["identity"]
      sampleStore computeDesc { sampleStore with preferences := ["compute"] }
      (.ValidationError "bogus") (by decide) rfl (by decide) (by decide)
  · decide

end OpenStackSDK
